import Mathlib

/-!
Shallow embedding of the `autonomous-coding` harness
(`autonomous_agent_demo.py` and `prompts.py`) and proofs about it.

Paths are modelled as plain POSIX path strings (already normalized: no
`./` segments, no duplicate or trailing slashes), absoluteness as
"starts with /". The filesystem is modelled as an association list from
filename to file content. Python string operations used by the code
(`str.replace`, `in`, `str.startswith`, `str.lower`) are embedded as
executable functions on `List Char` below.
-/

namespace AutonomousCoding

/-- Python `pat in s` on char lists: `pat` occurs as a contiguous substring. -/
def strContainsAux (pat : List Char) : List Char → Bool
  | [] => pat.isEmpty
  | c :: cs => pat.isPrefixOf (c :: cs) || strContainsAux pat cs

/-- Python `pat in s` for strings. -/
def strContains (s pat : String) : Bool :=
  strContainsAux pat.toList s.toList

/-- Python `s.startswith(pre)`. -/
def strStartsWith (s pre : String) : Bool :=
  pre.toList.isPrefixOf s.toList

/-- Python `s.lower()` (ASCII case, which is all the code compares). -/
def strToLower (s : String) : String :=
  ⟨s.toList.map Char.toLower⟩

/-- Python `s.replace(pat, rep)` on char lists: replace every
non-overlapping occurrence of `pat`, scanning left to right. The `fuel`
argument is only a structural-recursion bound; `fuel = l.length`
always suffices because each step consumes at least one character. -/
def pyReplaceAux (pat rep : List Char) : Nat → List Char → List Char
  | _, [] => []
  | 0, l => l
  | fuel + 1, c :: cs =>
    if pat ≠ [] ∧ pat.isPrefixOf (c :: cs) then
      rep ++ pyReplaceAux pat rep fuel ((c :: cs).drop pat.length)
    else
      c :: pyReplaceAux pat rep fuel cs

/-- Python `s.replace(pat, rep)` for strings (the code only calls it with
non-empty `pat`). -/
def pyReplace (s pat rep : String) : String :=
  ⟨pyReplaceAux pat.toList rep.toList s.toList.length s.toList⟩

/-! ## Project Identity Resolver (`autonomous_agent_demo.py:153-173`) -/

/-- The project-identity inputs of `main`: `--project-dir` (a `Path`,
truthy whenever present), `--project-name` (a `str`, truthy iff
non-empty) and `--spec` (defaulted string). -/
structure IdArgs where
  projectDir : Option String
  projectName : Option String
  spec : String
deriving DecidableEq, Repr

/-- `args.spec.replace(".txt", "").replace("_spec", "")`
(`autonomous_agent_demo.py:162`). -/
def derive_spec_name (spec : String) : String :=
  pyReplace (pyReplace spec ".txt" "") "_spec" ""

/-- The `if args.project_dir / elif args.project_name / else` chain
(`autonomous_agent_demo.py:154-163`). An empty `--project-name` is falsy
in Python and falls through to spec-name derivation. -/
def resolve_base (a : IdArgs) : String :=
  match a.projectDir with
  | some d => d
  | none =>
    match a.projectName with
    | some n => if n = "" then derive_spec_name a.spec else n
    | none => derive_spec_name a.spec

/-- The `generations/` namespacing step (`autonomous_agent_demo.py:166-173`):
leave the path alone when it already starts with `generations/` or is
absolute, otherwise prepend `generations/`. -/
def namespaced (p : String) : String :=
  if strStartsWith p "generations/" then p
  else if strStartsWith p "/" then p
  else "generations/" ++ p

/-- The full project-directory resolution performed by `main`. -/
def resolve_project_dir (a : IdArgs) : String :=
  namespaced (resolve_base a)

example : resolve_project_dir ⟨none, some "foo", "app_spec.txt"⟩ = "generations/foo" := by decide
example : resolve_project_dir ⟨some "/abs/x", none, "s"⟩ = "/abs/x" := by decide
example : resolve_project_dir ⟨none, none, "monitoring_dashboard_spec.txt"⟩
    = "generations/monitoring_dashboard" := by decide
example : resolve_project_dir ⟨none, none, "app_spec.txt"⟩ = "generations/app" := by decide

/-! ## Project State Provisioner (`prompts.py:31-60`) -/

/-- A directory of files: association list from filename to content.
Used both for the template library (`prompts/`) and for the project
directory's files. -/
abbrev FS : Type := List (String × String)

/-- Filename lookup in a directory. -/
def fsLookup : FS → String → Option String
  | [], _ => none
  | (k, v) :: rest, name => if k = name then some v else fsLookup rest name

/-- `is_dashboard_project` (`prompts.py:31-33`): substring heuristic on
the project directory's final path component, lowercased. -/
def is_dashboard_project (dirName : String) : Bool :=
  strContains (strToLower dirName) "dashboard" || strContains (strToLower dirName) "monitor"

/-- `copy_spec_to_project` (`prompts.py:36-60`) over the filesystem model.
`lib` is the template library (`PROMPTS_DIR`), `proj` the project
directory's files, `dirName` the directory's final path component.
A `shutil.copy` whose source is missing raises `FileNotFoundError`;
this is modelled as `.error (missingName, projAtRaise)`, carrying the
project state at the moment of the raise (earlier copies persist). -/
def copy_spec_to_project (lib proj : FS) (dirName : String) :
    Except (String × FS) FS :=
  let spec_source : String :=
    if is_dashboard_project dirName then "monitoring_dashboard_spec.txt" else "app_spec.txt"
  let step1 : Except (String × FS) FS :=
    if is_dashboard_project dirName then
      if (fsLookup proj "AGENT_CONTEXT.md").isSome then .ok proj
      else
        match fsLookup lib "AGENT_CONTEXT.md" with
        | some c => .ok (("AGENT_CONTEXT.md", c) :: proj)
        | none => .error ("AGENT_CONTEXT.md", proj)
    else .ok proj
  match step1 with
  | .error e => .error e
  | .ok proj1 =>
    if (fsLookup proj1 "app_spec.txt").isSome then .ok proj1
    else
      match fsLookup lib spec_source with
      | some c => .ok (("app_spec.txt", c) :: proj1)
      | none => .error (spec_source, proj1)

/-- Modelled from the spec: the consumption of the `--extra-files`
argument happens in `run_autonomous_agent` (`agent.py`), which is not
under `src/`. Per §4.2 of the spec, each requested auxiliary file is
copied from the template library into the project under its original
filename with the "same idempotent copy-if-absent rule", failing with
not-found when the template library lacks it. -/
def copy_extra_files (lib : FS) : FS → List String → Except (String × FS) FS
  | proj, [] => .ok proj
  | proj, f :: rest =>
    if (fsLookup proj f).isSome then copy_extra_files lib proj rest
    else
      match fsLookup lib f with
      | some c => copy_extra_files lib ((f, c) :: proj) rest
      | none => .error (f, proj)

/-- Modelled from the spec: `run_autonomous_agent` (`agent.py`, not under
`src/`). Per §2, §4.2 and §5 of the spec, the Session Driver provisions
the SpecBundle (canonical spec plus auxiliary files) synchronously and
only then issues the session call; a provisioning error is fatal and
aborts before any session is started. Returns the project files and
`true` once the session call is issued. -/
def run_autonomous_agent (lib proj : FS) (dirName : String)
    (extraFiles : List String) : Except (String × FS) (FS × Bool) :=
  match copy_spec_to_project lib proj dirName with
  | .error e => .error e
  | .ok fs1 =>
    match copy_extra_files lib fs1 extraFiles with
    | .error e => .error e
    | .ok fs2 => .ok (fs2, true)

/-! ## Dual-Sink Writer (`autonomous_agent_demo.py:26-42`) -/

/-- A buffered output stream: `data` is what has been durably received
(flushed), `pending` what `write` has accepted but not yet flushed. -/
structure Sink where
  data : String
  pending : String
deriving DecidableEq, Repr

/-- A sink's `write`: append to the buffer. -/
def Sink.write (s : Sink) (m : String) : Sink :=
  { s with pending := s.pending ++ m }

/-- A sink's `flush`: move the buffer into the durable data. -/
def Sink.flush (s : Sink) : Sink :=
  ⟨s.data ++ s.pending, ""⟩

/-- `TeeOutput` state: the wrapped terminal stream and the log file. -/
structure TeeOutput where
  terminal : Sink
  file : Sink
deriving DecidableEq, Repr

/-- `TeeOutput.write` (`autonomous_agent_demo.py:32-35`): write the
message to both sinks, then `self.flush()`. -/
def TeeOutput.write (t : TeeOutput) (m : String) : TeeOutput :=
  let t1 : TeeOutput := ⟨t.terminal.write m, t.file.write m⟩
  ⟨t1.terminal.flush, t1.file.flush⟩

/-- `TeeOutput.flush` (`autonomous_agent_demo.py:37-39`): flush both sinks. -/
def TeeOutput.flushBoth (t : TeeOutput) : TeeOutput :=
  ⟨t.terminal.flush, t.file.flush⟩

/-- A sequence of `write` calls on a `TeeOutput`. -/
def TeeOutput.writeAll (t : TeeOutput) (ms : List String) : TeeOutput :=
  ms.foldl TeeOutput.write t

/-- Concatenation of a sequence of written messages. -/
def concatAll : List String → String
  | [] => ""
  | m :: rest => m ++ concatAll rest

/-! ## Session Driver / `main` (`autonomous_agent_demo.py:141-202`) -/

/-- Observable side effects of `main`, in program order. `deleteFile`
can never be emitted by the embedded code; it is included so that
"no file is deleted" is a statement about a genuinely larger effect
language. -/
inductive Effect where
  | print (s : String)
  | mkdirAll (p : String)
  | openTruncate (p : String)
  | runSession (projectDir model : String) (maxIterations : Option Nat)
      (specFile : String) (extraFiles : List String)
  | deleteFile (p : String)
deriving DecidableEq, Repr

/-- Effect semantics on a directory of files: `open(p, "w")` truncates,
creating/emptying the file; deletion removes it; everything else leaves
files alone (`runSession`'s writes belong to the out-of-scope runtime). -/
def applyEffect : Effect → FS → FS
  | .openTruncate p, fs => (p, "") :: fs
  | .deleteFile p, fs => fs.filter (fun kv => kv.1 ≠ p)
  | _, fs => fs

/-- The outcome of the `asyncio.run(run_autonomous_agent(...))` call as
observed by `main`'s `try` block: normal return, `KeyboardInterrupt`,
or any other exception (with its message). -/
inductive SessionOutcome where
  | completed
  | interrupted
  | fatal (msg : String)
deriving DecidableEq, Repr

/-- The full CLI argument record of `parse_args`. -/
structure MainArgs where
  projectDir : Option String
  projectName : Option String
  maxIterations : Option Nat
  model : String
  spec : String
  extraFiles : List String
  logFile : String
deriving DecidableEq, Repr

/-- Python truthiness of `os.environ.get("CLAUDE_OAUTH_TOKEN")`:
present and non-empty. -/
def tokenSet (env : Option String) : Bool :=
  match env with
  | none => false
  | some t => t ≠ ""

/-- The prints of the missing-token branch (`autonomous_agent_demo.py:147-150`). -/
def tokenMissingEffects : List Effect :=
  [.print "Error: CLAUDE_OAUTH_TOKEN environment variable not set",
   .print "\nSet up your token using: claude setup-token",
   .print "\nThen set it:",
   .print "  export CLAUDE_OAUTH_TOKEN='your-token-here'"]

/-- Effects of the `try/except` block around the session call
(`autonomous_agent_demo.py:187-202`), paired with whether the exception
is re-raised (`raise` in the generic handler). -/
def outcomeEffects : SessionOutcome → List Effect × Bool
  | .completed => ([], false)
  | .interrupted =>
    ([.print "\n\nInterrupted by user", .print "To resume, run the same command again"], false)
  | .fatal m => ([.print ("\nFatal error: " ++ m)], true)

/-- `main` (`autonomous_agent_demo.py:141-202`) as an effect trace:
token pre-flight check, project-directory resolution, `mkdir -p`,
log-file opening in truncating `"w"` mode plus tee installation, then
the session call and its exception handling. The `Bool` is whether
`main` terminates by an exception propagating out. The session call's
outcome is an input, since the agent runtime is out of scope. -/
def main (env : Option String) (a : MainArgs) (o : SessionOutcome) :
    List Effect × Bool :=
  if tokenSet env = false then
    (tokenMissingEffects, false)
  else
    let pd := resolve_project_dir ⟨a.projectDir, a.projectName, a.spec⟩
    let logEffects : List Effect :=
      if a.logFile = "" then []
      else
        [.print ("Logging output to: " ++ (pd ++ "/" ++ a.logFile)),
         .openTruncate (pd ++ "/" ++ a.logFile)]
    let handled := outcomeEffects o
    (.mkdirAll pd :: logEffects
       ++ .runSession pd a.model a.maxIterations a.spec a.extraFiles :: handled.1,
     handled.2)

/-! ## Helper lemmas -/

theorem gen_append_ne (p : String) : "generations/" ++ p ≠ p := by
  intro h
  have hl : ("generations/" ++ p).length = p.length := by rw [h]
  rw [String.length_append] at hl
  have h12 : ("generations/" : String).length = 12 := rfl
  omega

theorem abs_not_gen (p : String) (h : strStartsWith p "/" = true) :
    strStartsWith p "generations/" = false := by
  unfold strStartsWith at h ⊢
  have h1 : ("/" : String).toList = ['/'] := rfl
  have h2 : ("generations/" : String).toList
      = 'g' :: "enerations/".toList := rfl
  rw [h1] at h
  rw [h2]
  cases hl : p.toList with
  | nil => rw [hl] at h; exact absurd h (by decide)
  | cons c cs =>
    rw [hl] at h
    rw [List.isPrefixOf_cons₂] at h ⊢
    rw [List.isPrefixOf_nil_left, Bool.and_true] at h
    have hc : '/' = c := eq_of_beq h
    rw [← hc]
    rw [show (('g' : Char) == '/') = false from rfl, Bool.false_and]

theorem pyReplaceAux_of_not_contains (pat rep : List Char) (fuel : Nat)
    (l : List Char) (h : strContainsAux pat l = false) :
    pyReplaceAux pat rep fuel l = l := by
  induction fuel generalizing l with
  | zero => cases l <;> rfl
  | succ fuel ih =>
    cases l with
    | nil => rfl
    | cons c cs =>
      unfold strContainsAux at h
      rw [Bool.or_eq_false_iff] at h
      unfold pyReplaceAux
      rw [if_neg, ih cs h.2]
      rintro ⟨-, hpre⟩
      rw [h.1] at hpre
      exact Bool.false_ne_true hpre

theorem fsLookup_cons_ne (k v name : String) (fs : FS) (hk : k ≠ name) :
    fsLookup ((k, v) :: fs) name = fsLookup fs name := by
  simp [fsLookup, hk]

theorem fsLookup_cons_self (k v : String) (fs : FS) :
    fsLookup ((k, v) :: fs) k = some v := by
  simp [fsLookup]

/-- Everything `copy_spec_to_project` guarantees about a successful run:
the canonical spec file is present afterwards; for dashboard projects the
context file is present afterwards; and a pre-existing canonical spec
file is left untouched. -/
theorem copy_spec_ok_cases (lib proj : FS) (d : String) (fs1 : FS)
    (h : copy_spec_to_project lib proj d = .ok fs1) :
    (fsLookup fs1 "app_spec.txt").isSome = true ∧
    (is_dashboard_project d = true → (fsLookup fs1 "AGENT_CONTEXT.md").isSome = true) ∧
    ((fsLookup proj "app_spec.txt").isSome = true →
      fsLookup fs1 "app_spec.txt" = fsLookup proj "app_spec.txt") := by
  have hne : ("AGENT_CONTEXT.md" : String) ≠ "app_spec.txt" := by decide
  have hne2 : ("app_spec.txt" : String) ≠ "AGENT_CONTEXT.md" := by decide
  by_cases hb : is_dashboard_project d
  · cases hctx : fsLookup proj "AGENT_CONTEXT.md" with
    | some c0 =>
      cases happ : fsLookup proj "app_spec.txt" with
      | some a0 =>
        simp [copy_spec_to_project, hb, hctx, happ] at h
        subst h
        simp [happ, hctx, hb]
      | none =>
        cases hsrc : fsLookup lib "monitoring_dashboard_spec.txt" with
        | some c =>
          simp [copy_spec_to_project, hb, hctx, happ, hsrc] at h
          subst h
          simp [fsLookup_cons_self, fsLookup_cons_ne _ _ _ _ hne2, hctx, happ]
        | none =>
          simp [copy_spec_to_project, hb, hctx, happ, hsrc] at h
    | none =>
      cases hcl : fsLookup lib "AGENT_CONTEXT.md" with
      | some c0 =>
        have happ1 : fsLookup (("AGENT_CONTEXT.md", c0) :: proj) "app_spec.txt"
            = fsLookup proj "app_spec.txt" := fsLookup_cons_ne _ _ _ _ hne
        cases happ : fsLookup proj "app_spec.txt" with
        | some a0 =>
          simp [copy_spec_to_project, hb, hctx, hcl, happ1, happ] at h
          subst h
          simp [happ1, happ, fsLookup_cons_self]
        | none =>
          cases hsrc : fsLookup lib "monitoring_dashboard_spec.txt" with
          | some c =>
            simp [copy_spec_to_project, hb, hctx, hcl, happ1, happ, hsrc] at h
            subst h
            simp [fsLookup_cons_self, fsLookup_cons_ne _ _ _ _ hne2,
              fsLookup_cons_ne _ _ _ _ hne, happ]
          | none =>
            simp [copy_spec_to_project, hb, hctx, hcl, happ1, happ, hsrc] at h
      | none =>
        simp [copy_spec_to_project, hb, hctx, hcl] at h
  · cases happ : fsLookup proj "app_spec.txt" with
    | some a0 =>
      simp [copy_spec_to_project, hb, happ] at h
      subst h
      simp [happ, hb]
    | none =>
      cases hsrc : fsLookup lib "app_spec.txt" with
      | some c =>
        simp [copy_spec_to_project, hb, happ, hsrc] at h
        subst h
        simp [fsLookup_cons_self, hb, happ]
      | none =>
        simp [copy_spec_to_project, hb, happ, hsrc] at h

/-- Once the canonical spec file (and, for dashboard projects, the
context file) is present, `copy_spec_to_project` is a no-op whatever the
template library now contains. -/
theorem copy_spec_noop_of_provisioned (lib2 fs1 : FS) (d : String)
    (happ : (fsLookup fs1 "app_spec.txt").isSome = true)
    (hctx : is_dashboard_project d = true →
      (fsLookup fs1 "AGENT_CONTEXT.md").isSome = true) :
    copy_spec_to_project lib2 fs1 d = .ok fs1 := by
  by_cases hb : is_dashboard_project d
  · simp [copy_spec_to_project, hb, hctx hb, happ]
  · simp [copy_spec_to_project, hb, happ]

/-! ## Claims -/

/-- C2: exactly one of explicit directory, explicit name and
spec-derived name determines the resolved project path, with precedence
dir > name > spec-derived; `generations/` is prepended iff the path is
relative and does not already begin with `generations/`; absolute paths
are left unmodified; and the three concrete examples resolve as the
spec states. -/
theorem resolve_project_dir_spec :
    (∀ d n s, resolve_project_dir ⟨some d, n, s⟩ = namespaced d) ∧
    (∀ n s, n ≠ "" → resolve_project_dir ⟨none, some n, s⟩ = namespaced n) ∧
    (∀ s, resolve_project_dir ⟨none, none, s⟩ = namespaced (derive_spec_name s)) ∧
    (∀ p, strStartsWith p "/" = true → namespaced p = p) ∧
    (∀ p, namespaced p = "generations/" ++ p ↔
        strStartsWith p "/" = false ∧ strStartsWith p "generations/" = false) ∧
    resolve_project_dir ⟨none, some "foo", "app_spec.txt"⟩ = "generations/foo" ∧
    resolve_project_dir ⟨some "/abs/x", none, "any"⟩ = "/abs/x" ∧
    resolve_project_dir ⟨none, none, "monitoring_dashboard_spec.txt"⟩
      = "generations/monitoring_dashboard" := by
  refine ⟨fun d n s => rfl, fun n s hn => ?_, fun s => rfl, fun p hp => ?_,
    fun p => ?_, by decide, by decide, by decide⟩
  · simp [resolve_project_dir, resolve_base, hn]
  · simp [namespaced, abs_not_gen p hp, hp]
  · constructor
    · intro h
      by_cases hg : strStartsWith p "generations/"
      · exact absurd (by rw [← h]; simp [namespaced, hg]) (gen_append_ne p).symm
      · by_cases ha : strStartsWith p "/"
        · exact absurd (by rw [← h]; simp [namespaced, ha, hg]) (gen_append_ne p).symm
        · exact ⟨by simpa using ha, by simpa using hg⟩
    · rintro ⟨h1, h2⟩
      simp [namespaced, h1, h2]

theorem resolve_project_dir_spec_witness :
    resolve_project_dir ⟨none, some "foo", "x.txt"⟩ = namespaced "foo" ∧
    namespaced "/abs/x" = "/abs/x" ∧
    namespaced "rel" = "generations/" ++ "rel" :=
  ⟨resolve_project_dir_spec.2.1 "foo" "x.txt" (by decide),
   resolve_project_dir_spec.2.2.2.1 "/abs/x" (by decide),
   (resolve_project_dir_spec.2.2.2.2.1 "rel").mpr ⟨by decide, by decide⟩⟩

/-- C3 counterexample: with `spec=app_spec.txt` and no dir/name the code
resolves to `generations/app`, not `generations/app_spec`, because
`"app_spec".replace("_spec", "")` also removes the trailing `_spec`. -/
theorem app_spec_resolution_counterexample :
    resolve_project_dir ⟨none, none, "app_spec.txt"⟩ = "generations/app" ∧
    resolve_project_dir ⟨none, none, "app_spec.txt"⟩ ≠ "generations/app_spec" := by
  decide

/-- C3 amended: derivation never fails, and for every spec filename in
which `"_spec"` does not occur (as a substring, after extension
stripping) the derived name is the filename with the `".txt"`
occurrences stripped; but `app_spec.txt` yields `generations/app`,
since its `"_spec"` token is removed as well. -/
theorem derive_spec_name_spec :
    (∀ s : String, strContains (pyReplace s ".txt" "") "_spec" = false →
        derive_spec_name s = pyReplace s ".txt" "") ∧
    resolve_project_dir ⟨none, none, "app_spec.txt"⟩ = "generations/app" := by
  refine ⟨fun s h => ?_, by decide⟩
  show pyReplace (pyReplace s ".txt" "") "_spec" "" = pyReplace s ".txt" ""
  generalize pyReplace s ".txt" "" = t at h ⊢
  unfold pyReplace
  unfold strContains at h
  rw [pyReplaceAux_of_not_contains _ _ _ _ h]
  rfl

theorem derive_spec_name_spec_witness :
    strContains (pyReplace "readme.md" ".txt" "") "_spec" = false ∧
    derive_spec_name "readme.md" = pyReplace "readme.md" ".txt" "" :=
  ⟨by decide, derive_spec_name_spec.1 "readme.md" (by decide)⟩

/-- C1: provisioning the canonical spec file is idempotent. If
`app_spec.txt` already exists it is never overwritten, and after one
successful provisioning a second run is a strict no-op on the project
files — whatever the template library contains by then (`lib2`). -/
theorem copy_spec_to_project_idempotent (lib lib2 proj : FS) (d : String)
    (fs1 : FS) (h : copy_spec_to_project lib proj d = .ok fs1) :
    copy_spec_to_project lib2 fs1 d = .ok fs1 ∧
    ((fsLookup proj "app_spec.txt").isSome = true →
      fsLookup fs1 "app_spec.txt" = fsLookup proj "app_spec.txt") := by
  have hc := copy_spec_ok_cases lib proj d fs1 h
  exact ⟨copy_spec_noop_of_provisioned lib2 fs1 d hc.1 hc.2.1, hc.2.2⟩

theorem copy_spec_to_project_idempotent_witness :
    copy_spec_to_project [("app_spec.txt", "T")] [("app_spec.txt", "S")] "proj"
      = .ok [("app_spec.txt", "S")] ∧
    ((fsLookup [("app_spec.txt", "S")] "app_spec.txt").isSome = true →
      fsLookup [("app_spec.txt", "S")] "app_spec.txt"
        = fsLookup [("app_spec.txt", "S")] "app_spec.txt") :=
  copy_spec_to_project_idempotent [("app_spec.txt", "U")] [("app_spec.txt", "T")]
    [("app_spec.txt", "S")] "proj" [("app_spec.txt", "S")] rfl

/-- C7: when the template the provisioner reads is missing from the
template library (and no canonical spec file exists yet), provisioning
fails with a not-found error naming a missing template, the project
state at the raise holds no `app_spec.txt`, and the session is never
started (the driver, modelled from the spec, aborts on the error). -/
theorem copy_spec_missing_template (lib proj : FS) (d : String)
    (happ : fsLookup proj "app_spec.txt" = none)
    (hmiss : fsLookup lib (if is_dashboard_project d
        then "monitoring_dashboard_spec.txt" else "app_spec.txt") = none) :
    ∃ e fsE, copy_spec_to_project lib proj d = .error (e, fsE) ∧
      fsLookup fsE "app_spec.txt" = none ∧
      ∀ extraFiles, run_autonomous_agent lib proj d extraFiles = .error (e, fsE) := by
  have hne : ("AGENT_CONTEXT.md" : String) ≠ "app_spec.txt" := by decide
  by_cases hb : is_dashboard_project d
  · rw [if_pos hb] at hmiss
    cases hctx : fsLookup proj "AGENT_CONTEXT.md" with
    | some c0 =>
      have hcopy : copy_spec_to_project lib proj d
          = .error ("monitoring_dashboard_spec.txt", proj) := by
        simp [copy_spec_to_project, hb, hctx, happ, hmiss]
      exact ⟨_, _, hcopy, happ, fun ef => by simp [run_autonomous_agent, hcopy]⟩
    | none =>
      cases hcl : fsLookup lib "AGENT_CONTEXT.md" with
      | some c0 =>
        have happ1 : fsLookup (("AGENT_CONTEXT.md", c0) :: proj) "app_spec.txt"
            = fsLookup proj "app_spec.txt" := fsLookup_cons_ne _ _ _ _ hne
        have hcopy : copy_spec_to_project lib proj d
            = .error ("monitoring_dashboard_spec.txt",
                ("AGENT_CONTEXT.md", c0) :: proj) := by
          simp [copy_spec_to_project, hb, hctx, hcl, happ1, happ, hmiss]
        refine ⟨_, _, hcopy, ?_, fun ef => by simp [run_autonomous_agent, hcopy]⟩
        rw [happ1]
        exact happ
      | none =>
        have hcopy : copy_spec_to_project lib proj d
            = .error ("AGENT_CONTEXT.md", proj) := by
          simp [copy_spec_to_project, hb, hctx, hcl]
        exact ⟨_, _, hcopy, happ, fun ef => by simp [run_autonomous_agent, hcopy]⟩
  · rw [if_neg hb] at hmiss
    have hcopy : copy_spec_to_project lib proj d
        = .error ("app_spec.txt", proj) := by
      simp [copy_spec_to_project, hb, happ, hmiss]
    exact ⟨_, _, hcopy, happ, fun ef => by simp [run_autonomous_agent, hcopy]⟩

theorem copy_spec_missing_template_witness :
    ∃ e fsE, copy_spec_to_project [] [] "x" = .error (e, fsE) ∧
      fsLookup fsE "app_spec.txt" = none ∧
      ∀ extraFiles, run_autonomous_agent [] [] "x" extraFiles = .error (e, fsE) :=
  copy_spec_missing_template [] [] "x" rfl rfl

/-- C9: which template becomes the project's `app_spec.txt` is decided
solely by the substring heuristic on the project directory's final path
component, lowercased — `monitoring_dashboard_spec.txt` when it contains
`"dashboard"` or `"monitor"`, else `app_spec.txt` — and
`AGENT_CONTEXT.md` is additionally copied exactly when the heuristic
holds and the file is absent. The provisioner takes no spec-file
argument at all (mirroring `copy_spec_to_project(project_dir)`), so the
caller's `--spec` value cannot influence this choice. -/
theorem copy_spec_source_heuristic (lib proj : FS) (d : String) (fs1 : FS)
    (happ : fsLookup proj "app_spec.txt" = none)
    (h : copy_spec_to_project lib proj d = .ok fs1) :
    fsLookup fs1 "app_spec.txt" =
      fsLookup lib
        (if strContains (strToLower d) "dashboard" || strContains (strToLower d) "monitor"
          then "monitoring_dashboard_spec.txt" else "app_spec.txt") ∧
    fsLookup fs1 "AGENT_CONTEXT.md" =
      (if (strContains (strToLower d) "dashboard" || strContains (strToLower d) "monitor")
            && (fsLookup proj "AGENT_CONTEXT.md").isNone
        then fsLookup lib "AGENT_CONTEXT.md"
        else fsLookup proj "AGENT_CONTEXT.md") := by
  have hne : ("AGENT_CONTEXT.md" : String) ≠ "app_spec.txt" := by decide
  have hne2 : ("app_spec.txt" : String) ≠ "AGENT_CONTEXT.md" := by decide
  have hbd : (strContains (strToLower d) "dashboard" || strContains (strToLower d) "monitor")
      = is_dashboard_project d := rfl
  rw [hbd]
  by_cases hb : is_dashboard_project d
  · cases hctx : fsLookup proj "AGENT_CONTEXT.md" with
    | some c0 =>
      cases hsrc : fsLookup lib "monitoring_dashboard_spec.txt" with
      | some c =>
        simp [copy_spec_to_project, hb, hctx, happ, hsrc] at h
        subst h
        simp [hb, hctx, hsrc, fsLookup_cons_self, fsLookup_cons_ne _ _ _ _ hne2]
      | none => simp [copy_spec_to_project, hb, hctx, happ, hsrc] at h
    | none =>
      cases hcl : fsLookup lib "AGENT_CONTEXT.md" with
      | some c0 =>
        have happ1 : fsLookup (("AGENT_CONTEXT.md", c0) :: proj) "app_spec.txt"
            = fsLookup proj "app_spec.txt" := fsLookup_cons_ne _ _ _ _ hne
        cases hsrc : fsLookup lib "monitoring_dashboard_spec.txt" with
        | some c =>
          simp [copy_spec_to_project, hb, hctx, hcl, happ1, happ, hsrc] at h
          subst h
          simp [hb, hctx, hcl, hsrc, fsLookup_cons_self,
            fsLookup_cons_ne _ _ _ _ hne2, fsLookup_cons_ne _ _ _ _ hne]
        | none =>
          simp [copy_spec_to_project, hb, hctx, hcl, happ1, happ, hsrc] at h
      | none => simp [copy_spec_to_project, hb, hctx, hcl] at h
  · cases hsrc : fsLookup lib "app_spec.txt" with
    | some c =>
      simp [copy_spec_to_project, hb, happ, hsrc] at h
      subst h
      simp [hb, hsrc, fsLookup_cons_self, fsLookup_cons_ne _ _ _ _ hne2]
    | none => simp [copy_spec_to_project, hb, happ, hsrc] at h

theorem copy_spec_source_heuristic_witness :
    fsLookup [("app_spec.txt", "M"), ("AGENT_CONTEXT.md", "C")] "app_spec.txt" =
      fsLookup [("app_spec.txt", "A"), ("monitoring_dashboard_spec.txt", "M"),
          ("AGENT_CONTEXT.md", "C")]
        (if strContains (strToLower "monitoring_dashboard") "dashboard"
              || strContains (strToLower "monitoring_dashboard") "monitor"
          then "monitoring_dashboard_spec.txt" else "app_spec.txt") ∧
    fsLookup [("app_spec.txt", "M"), ("AGENT_CONTEXT.md", "C")] "AGENT_CONTEXT.md" =
      (if (strContains (strToLower "monitoring_dashboard") "dashboard"
              || strContains (strToLower "monitoring_dashboard") "monitor")
            && (fsLookup ([] : FS) "AGENT_CONTEXT.md").isNone
        then fsLookup [("app_spec.txt", "A"), ("monitoring_dashboard_spec.txt", "M"),
            ("AGENT_CONTEXT.md", "C")] "AGENT_CONTEXT.md"
        else fsLookup ([] : FS) "AGENT_CONTEXT.md") :=
  copy_spec_source_heuristic
    [("app_spec.txt", "A"), ("monitoring_dashboard_spec.txt", "M"),
      ("AGENT_CONTEXT.md", "C")]
    [] "monitoring_dashboard"
    [("app_spec.txt", "M"), ("AGENT_CONTEXT.md", "C")] rfl rfl

/-- Auxiliary-file provisioning leaves every file whose name is already
present in the project untouched. -/
theorem copy_extra_preserves (lib : FS) (files : List String) :
    ∀ (proj fs' : FS), copy_extra_files lib proj files = .ok fs' →
      ∀ g, (fsLookup proj g).isSome = true → fsLookup fs' g = fsLookup proj g := by
  induction files with
  | nil =>
    intro proj fs' h g hg
    simp [copy_extra_files] at h
    subst h
    rfl
  | cons f0 rest ih =>
    intro proj fs' h g hg
    cases hp : fsLookup proj f0 with
    | some c =>
      simp [copy_extra_files, hp] at h
      exact ih proj fs' h g hg
    | none =>
      cases hl : fsLookup lib f0 with
      | some c =>
        simp [copy_extra_files, hp, hl] at h
        have hne : f0 ≠ g := by
          intro e
          subst e
          rw [hp] at hg
          simp at hg
        have hcons : fsLookup ((f0, c) :: proj) g = fsLookup proj g :=
          fsLookup_cons_ne _ _ _ _ hne
        have hres := ih ((f0, c) :: proj) fs' h g (by rw [hcons]; exact hg)
        rw [hres, hcons]
      | none => simp [copy_extra_files, hp, hl] at h

/-- C8 (extra-files consumption modelled from the spec, see
`copy_extra_files`): every auxiliary file requested via the extra-files
input is materialized under its original filename iff not already
present — present files keep their content, absent files receive the
template library's content. The copier takes no project-directory name,
so the rule is independent of any property of that name. -/
theorem copy_extra_files_spec (lib : FS) (files : List String) :
    ∀ (proj fs' : FS), copy_extra_files lib proj files = .ok fs' →
      ∀ f, f ∈ files →
        ((fsLookup proj f).isSome = true → fsLookup fs' f = fsLookup proj f) ∧
        (fsLookup proj f = none → fsLookup fs' f = fsLookup lib f) := by
  induction files with
  | nil =>
    intro proj fs' h f hf
    cases hf
  | cons f0 rest ih =>
    intro proj fs' h f hf
    cases hp : fsLookup proj f0 with
    | some c =>
      simp [copy_extra_files, hp] at h
      rcases List.mem_cons.mp hf with rfl | hfr
      · refine ⟨fun hs => copy_extra_preserves lib rest proj fs' h f hs, fun hn => ?_⟩
        simp [hn] at hp
      · exact ih proj fs' h f hfr
    | none =>
      cases hl : fsLookup lib f0 with
      | some c =>
        simp [copy_extra_files, hp, hl] at h
        rcases List.mem_cons.mp hf with rfl | hfr
        · refine ⟨fun hs => ?_, fun hn => ?_⟩
          · simp [hp] at hs
          · have hself : fsLookup ((f, c) :: proj) f = some c :=
              fsLookup_cons_self _ _ _
            have hres := copy_extra_preserves lib rest ((f, c) :: proj) fs' h f
              (by rw [hself]; rfl)
            rw [hres, hself, hl]
        · have hrec := ih ((f0, c) :: proj) fs' h f hfr
          by_cases hef : f0 = f
          · subst hef
            have hself : fsLookup ((f0, c) :: proj) f0 = some c :=
              fsLookup_cons_self _ _ _
            refine ⟨fun hs => by simp [hp] at hs, fun hn => ?_⟩
            have hres := hrec.1 (by rw [hself]; rfl)
            rw [hres, hself, hl]
          · have hcons : fsLookup ((f0, c) :: proj) f = fsLookup proj f :=
              fsLookup_cons_ne _ _ _ _ hef
            refine ⟨fun hs => ?_, fun hn => ?_⟩
            · have hres := hrec.1 (by rw [hcons]; exact hs)
              rw [hres, hcons]
            · have hres := hrec.2 (by rw [hcons]; exact hn)
              rw [hres]
      | none => simp [copy_extra_files, hp, hl] at h

theorem copy_extra_files_spec_witness :
    ((fsLookup ([] : FS) "AGENT_CONTEXT.md").isSome = true →
      fsLookup [("AGENT_CONTEXT.md", "C")] "AGENT_CONTEXT.md"
        = fsLookup ([] : FS) "AGENT_CONTEXT.md") ∧
    (fsLookup ([] : FS) "AGENT_CONTEXT.md" = none →
      fsLookup [("AGENT_CONTEXT.md", "C")] "AGENT_CONTEXT.md"
        = fsLookup [("AGENT_CONTEXT.md", "C")] "AGENT_CONTEXT.md") :=
  copy_extra_files_spec [("AGENT_CONTEXT.md", "C")] ["AGENT_CONTEXT.md"]
    [] [("AGENT_CONTEXT.md", "C")] rfl "AGENT_CONTEXT.md" (by decide)

/-- C5: for every sequence of `write` calls on a `TeeOutput` whose sinks
hold no buffered data, the terminal sink and the log-file sink receive
byte-identical content (the concatenation of all messages), and after
every write both sinks hold zero unflushed data. -/
theorem teeOutput_write_spec (ms : List String) (t0 : TeeOutput)
    (ht : t0.terminal.pending = "") (hf : t0.file.pending = "") :
    (t0.writeAll ms).terminal.pending = "" ∧
    (t0.writeAll ms).file.pending = "" ∧
    (t0.writeAll ms).terminal.data = t0.terminal.data ++ concatAll ms ∧
    (t0.writeAll ms).file.data = t0.file.data ++ concatAll ms := by
  induction ms generalizing t0 with
  | nil =>
    simp [TeeOutput.writeAll, concatAll, ht, hf, String.append_empty]
  | cons m rest ih =>
    have hstep : TeeOutput.writeAll t0 (m :: rest)
        = TeeOutput.writeAll (t0.write m) rest := rfl
    have hterm : (t0.write m).terminal
        = ⟨t0.terminal.data ++ m, ""⟩ := by
      simp [TeeOutput.write, Sink.write, Sink.flush, ht]
    have hfile : (t0.write m).file
        = ⟨t0.file.data ++ m, ""⟩ := by
      simp [TeeOutput.write, Sink.write, Sink.flush, hf]
    have hrec := ih (t0.write m) (by rw [hterm]) (by rw [hfile])
    rw [hstep]
    refine ⟨hrec.1, hrec.2.1, ?_, ?_⟩
    · rw [hrec.2.2.1, hterm]
      simp [concatAll, String.append_assoc]
    · rw [hrec.2.2.2, hfile]
      simp [concatAll, String.append_assoc]

theorem teeOutput_write_spec_witness :
    (TeeOutput.writeAll ⟨⟨"", ""⟩, ⟨"", ""⟩⟩ ["a", "bc"]).terminal.pending = "" ∧
    (TeeOutput.writeAll ⟨⟨"", ""⟩, ⟨"", ""⟩⟩ ["a", "bc"]).file.pending = "" ∧
    (TeeOutput.writeAll ⟨⟨"", ""⟩, ⟨"", ""⟩⟩ ["a", "bc"]).terminal.data
      = "" ++ concatAll ["a", "bc"] ∧
    (TeeOutput.writeAll ⟨⟨"", ""⟩, ⟨"", ""⟩⟩ ["a", "bc"]).file.data
      = "" ++ concatAll ["a", "bc"] :=
  teeOutput_write_spec ["a", "bc"] ⟨⟨"", ""⟩, ⟨"", ""⟩⟩ rfl rfl

/-- C4: with the credential present, `main` re-raises exactly when the
session call raised a non-`KeyboardInterrupt` exception; an interruption
prints the resumption hint and exits without raising; a fatal error is
printed and re-raised; and no outcome makes the harness delete a file. -/
theorem session_outcome_handling (env : Option String) (a : MainArgs)
    (o : SessionOutcome) (htok : tokenSet env = true) :
    ((main env a o).2 = true ↔ ∃ m, o = .fatal m) ∧
    (o = .interrupted →
      Effect.print "To resume, run the same command again" ∈ (main env a o).1 ∧
      (main env a o).2 = false) ∧
    (∀ m, o = .fatal m →
      Effect.print ("\nFatal error: " ++ m) ∈ (main env a o).1 ∧
      (main env a o).2 = true) ∧
    (∀ p, Effect.deleteFile p ∉ (main env a o).1) := by
  cases o <;> by_cases hlog : a.logFile = "" <;>
    simp [main, htok, outcomeEffects, hlog]

theorem session_outcome_handling_witness :
    ((main (some "tok") ⟨none, none, none, "m", "s.txt", [], "log.txt"⟩
        SessionOutcome.interrupted).2 = true ↔
      ∃ m, SessionOutcome.interrupted = SessionOutcome.fatal m) ∧
    (SessionOutcome.interrupted = SessionOutcome.interrupted →
      Effect.print "To resume, run the same command again" ∈
        (main (some "tok") ⟨none, none, none, "m", "s.txt", [], "log.txt"⟩
          SessionOutcome.interrupted).1 ∧
      (main (some "tok") ⟨none, none, none, "m", "s.txt", [], "log.txt"⟩
        SessionOutcome.interrupted).2 = false) ∧
    (∀ m, SessionOutcome.interrupted = SessionOutcome.fatal m →
      Effect.print ("\nFatal error: " ++ m) ∈
        (main (some "tok") ⟨none, none, none, "m", "s.txt", [], "log.txt"⟩
          SessionOutcome.interrupted).1 ∧
      (main (some "tok") ⟨none, none, none, "m", "s.txt", [], "log.txt"⟩
        SessionOutcome.interrupted).2 = true) ∧
    (∀ p, Effect.deleteFile p ∉
      (main (some "tok") ⟨none, none, none, "m", "s.txt", [], "log.txt"⟩
        SessionOutcome.interrupted).1) :=
  session_outcome_handling (some "tok") ⟨none, none, none, "m", "s.txt", [], "log.txt"⟩
    SessionOutcome.interrupted (by decide)

/-- C6: with the credential variable absent, `main` performs only the
four operator-facing prints and returns without raising — no directory
creation, no log-file opening, no session call. -/
theorem missing_token_preflight (a : MainArgs) (o : SessionOutcome) :
    main none a o = (tokenMissingEffects, false) ∧
    ∀ e ∈ (main none a o).1, ∃ s, e = Effect.print s := by
  refine ⟨rfl, fun e he => ?_⟩
  simp [main, tokenSet, tokenMissingEffects] at he
  rcases he with rfl | rfl | rfl | rfl <;> exact ⟨_, rfl⟩

theorem missing_token_preflight_witness :
    main none ⟨none, none, none, "m", "s.txt", [], "log.txt"⟩ SessionOutcome.completed
      = (tokenMissingEffects, false) ∧
    ∃ s, Effect.print "Error: CLAUDE_OAUTH_TOKEN environment variable not set"
      = Effect.print s :=
  ⟨(missing_token_preflight ⟨none, none, none, "m", "s.txt", [], "log.txt"⟩
      SessionOutcome.completed).1,
   (missing_token_preflight ⟨none, none, none, "m", "s.txt", [], "log.txt"⟩
      SessionOutcome.completed).2
     (Effect.print "Error: CLAUDE_OAUTH_TOKEN environment variable not set")
     (by decide)⟩

/-- C10: with the credential present and a non-empty log-file name, the
log file is opened in truncating `"w"` mode strictly before the session
effect — the trace is exactly mkdir, notice print, truncating open, the
session call, then the outcome handling — and a truncating open erases
any previous content of that file. -/
theorem log_file_truncating_open (env : Option String) (a : MainArgs)
    (o : SessionOutcome) (htok : tokenSet env = true) (hlog : a.logFile ≠ "") :
    (main env a o).1 =
      [Effect.mkdirAll (resolve_project_dir ⟨a.projectDir, a.projectName, a.spec⟩),
       Effect.print ("Logging output to: "
         ++ (resolve_project_dir ⟨a.projectDir, a.projectName, a.spec⟩ ++ "/" ++ a.logFile)),
       Effect.openTruncate
         (resolve_project_dir ⟨a.projectDir, a.projectName, a.spec⟩ ++ "/" ++ a.logFile)]
      ++ Effect.runSession (resolve_project_dir ⟨a.projectDir, a.projectName, a.spec⟩)
           a.model a.maxIterations a.spec a.extraFiles :: (outcomeEffects o).1 ∧
    ∀ fs, fsLookup
        (applyEffect
          (Effect.openTruncate
            (resolve_project_dir ⟨a.projectDir, a.projectName, a.spec⟩ ++ "/" ++ a.logFile))
          fs)
        (resolve_project_dir ⟨a.projectDir, a.projectName, a.spec⟩ ++ "/" ++ a.logFile)
      = some "" := by
  refine ⟨by simp [main, htok, hlog], fun fs => ?_⟩
  simp [applyEffect, fsLookup_cons_self]

theorem log_file_truncating_open_witness :
    (main (some "tok") ⟨none, none, none, "m", "s.txt", [], "live-output.txt"⟩
        SessionOutcome.completed).1 =
      [Effect.mkdirAll (resolve_project_dir ⟨none, none, "s.txt"⟩),
       Effect.print ("Logging output to: "
         ++ (resolve_project_dir ⟨none, none, "s.txt"⟩ ++ "/" ++ "live-output.txt")),
       Effect.openTruncate
         (resolve_project_dir ⟨none, none, "s.txt"⟩ ++ "/" ++ "live-output.txt")]
      ++ Effect.runSession (resolve_project_dir ⟨none, none, "s.txt"⟩)
           "m" none "s.txt" [] :: (outcomeEffects SessionOutcome.completed).1 ∧
    ∀ fs, fsLookup
        (applyEffect
          (Effect.openTruncate
            (resolve_project_dir ⟨none, none, "s.txt"⟩ ++ "/" ++ "live-output.txt"))
          fs)
        (resolve_project_dir ⟨none, none, "s.txt"⟩ ++ "/" ++ "live-output.txt")
      = some "" :=
  log_file_truncating_open (some "tok")
    ⟨none, none, none, "m", "s.txt", [], "live-output.txt"⟩
    SessionOutcome.completed (by decide) (by decide)

end AutonomousCoding
